import Mathlib

/-!
Shallow embedding of the chunked transcription and topic segmentation engine
(transcribe-chunks handler): chunk planning, minimum-chunk-size dropping,
per-chunk retry/backoff policy, the dynamic success-threshold gate, timeline
reconciliation of per-chunk segments, duration-based topic-count selection,
and the segmentation-failure fallback policy.

Numeric values that the source computes on JavaScript numbers are modelled
as exact rationals; the one place where IEEE semantics is observable
(the 0/0 = NaN comparison when a file yields zero chunks) is modelled
explicitly by the zero-denominator branch of the gate.
-/

namespace RadioIA

/-- A planned byte-range chunk.  The source builds
`{ start: offset, end: endByte, index: chunks.length }`; the exclusive end
field is called `endByte` here because `end` is reserved in Lean. -/
structure ChunkSpec where
  start : ℕ
  endByte : ℕ
  index : ℕ
deriving Repr, DecidableEq

/-- A transcription segment as returned by the speech-to-text service:
chunk-relative start/end times in seconds.  The source field `end` is
modelled as `stop`. -/
structure Segment where
  text : String
  start : ℚ
  stop : ℚ
deriving Repr, DecidableEq

/-- A segment on the reconstructed global timeline, produced by the
reconciliation loop in `analyzeTopicsWithTimestamps`. -/
structure GlobalSegment where
  text : String
  start : ℚ
  stop : ℚ
  chunkIndex : ℕ
deriving Repr, DecidableEq

/-- An error object thrown by the transcription client: an HTTP status, a
message, and the optional parsed `x-ratelimit-reset-requests` header
(`none` models an absent header). -/
structure ApiError where
  status : ℕ
  message : String
  resetHint : Option ℕ
deriving Repr, DecidableEq

/-- The per-chunk result value of `transcribeChunkWithRetry`: either the
success object `{success: true, text, segments, duration, index}` (the
service may in principle omit segments or duration, hence `Option`), or the
failure object `{success: false, error, index, permanent?}`. -/
inductive ChunkResult where
  | ok (text : String) (segments : Option (List Segment)) (duration : Option ℚ)
      (index : ℕ)
  | failed (e : ApiError) (index : ℕ) (permanent : Bool)
deriving Repr, DecidableEq

/-- The `result.success` field. -/
def ChunkResult.isSuccess : ChunkResult → Bool
  | .ok .. => true
  | .failed .. => false

/-- The `result.text` field of a successful result (failures carry no text). -/
def ChunkResult.getText : ChunkResult → String
  | .ok t _ _ _ => t
  | .failed .. => ""

/-- `const MAX_RETRIES = 3`. -/
def MAX_RETRIES : ℕ := 3

/-- `calculateSuccessThreshold(totalChunks)`:
dynamic success threshold based on chunk count. -/
def calculateSuccessThreshold (totalChunks : ℕ) : ℚ :=
  if totalChunks ≤ 3 then 1
  else if totalChunks ≤ 5 then 8/10
  else if totalChunks ≤ 10 then 7/10
  else max (6/10) (1 - 3 / (totalChunks : ℚ))

/-- The error thrown by `getDetailedTranscriptionResults` when the success
gate rejects the job:
`Transcription failed: S/T chunks succeeded, need R`. -/
structure InsufficientSuccessError where
  successfulChunks : ℕ
  totalChunks : ℕ
  required : ℕ
deriving Repr, DecidableEq

/-- `Math.ceil(totalChunks * requiredThreshold)`, the required success count
reported in the gate's error message. -/
def requiredSuccessCount (totalChunks : ℕ) : ℕ :=
  (⌈(totalChunks : ℚ) * calculateSuccessThreshold totalChunks⌉).toNat

/-- The success-gate comparison of `getDetailedTranscriptionResults`:
`if (successfulChunks / totalChunks < requiredThreshold) throw ...`.
When `totalChunks = 0` the JavaScript quotient `0/0` is `NaN`, and
`NaN < x` is `false`, so no error is raised; that IEEE behaviour is the
explicit first branch. -/
def successGate (successfulChunks totalChunks : ℕ) :
    Except InsufficientSuccessError Unit :=
  if totalChunks = 0 then .ok ()
  else if (successfulChunks : ℚ) / (totalChunks : ℚ) <
      calculateSuccessThreshold totalChunks then
    .error ⟨successfulChunks, totalChunks, requiredSuccessCount totalChunks⟩
  else .ok ()

/-- The chunk-planning loop of `getDetailedTranscriptionResults`:
`while (offset < fileSize) { endByte = min(offset + chunkSize, fileSize);
push {start: offset, end: endByte, index}; offset = endByte }`.
The loop advances by at least one byte per iteration whenever
`chunkSize > 0`, so `fileSize` steps of fuel always suffice. -/
def planChunksGo (fileSize chunkSize : ℕ) : ℕ → ℕ → ℕ → List ChunkSpec
  | 0, _, _ => []
  | fuel + 1, offset, idx =>
    if offset < fileSize then
      let endByte := min (offset + chunkSize) fileSize
      ⟨offset, endByte, idx⟩ :: planChunksGo fileSize chunkSize fuel endByte (idx + 1)
    else []

/-- The full chunk plan for a file of `fileSize` bytes with the configured
`chunkSize`. -/
def planChunks (fileSize chunkSize : ℕ) : List ChunkSpec :=
  planChunksGo fileSize chunkSize fileSize 0 0

/-- `coversFromB l a b` checks that the chunk list `l` is a contiguous,
gap-free, non-overlapping cover of the byte interval `[a, b)`: each chunk
starts where its predecessor ended, is non-empty, stays within `b`, and the
final chunk ends exactly at `b`. -/
def coversFromB : List ChunkSpec → ℕ → ℕ → Bool
  | [], a, b => a == b
  | c :: rest, a, b =>
    (c.start == a) && decide (a < c.endByte) && decide (c.endByte ≤ b) &&
      coversFromB rest c.endByte b

/-- One attempt of the transcription call for a chunk: either the service's
verbose-json response (text, segments, duration) or a thrown error. -/
inductive AttemptOutcome where
  | ok (text : String) (segments : Option (List Segment)) (duration : Option ℚ)
  | err (e : ApiError)
deriving Repr, DecidableEq

/-- The permanent (never retried) HTTP statuses of `transcribeChunkWithRetry`:
400, and 401 / 403 / 413. -/
def isPermanentStatus (status : ℕ) : Bool :=
  status == 400 || status == 401 || status == 403 || status == 413

/-- The backoff computed before a retry: for status 429 the parsed
`x-ratelimit-reset-requests` header if present else a fixed 2000 ms;
otherwise `Math.pow(2, retryCount) * 1000` ms. -/
def backoffTime (e : ApiError) (retryCount : ℕ) : ℕ :=
  if e.status == 429 then
    match e.resetHint with
    | some ms => ms
    | none => 2000
  else 2 ^ retryCount * 1000

/-- The recursion of `transcribeChunkWithRetry`, with `retriesLeft`
standing for `MAX_RETRIES - retryCount` (the guard `retryCount < MAX_RETRIES`
holds exactly when `retriesLeft > 0`).  `attempts k` is the outcome of the
transcription call on attempt number `k`.  Returns the final `ChunkResult`
together with the list of backoff sleeps performed, in order. -/
def retryGo (attempts : ℕ → AttemptOutcome) (index : ℕ) :
    ℕ → ℕ → ChunkResult × List ℕ
  | 0, retryCount =>
    match attempts retryCount with
    | .ok t s d => (.ok t s d index, [])
    | .err e =>
      if isPermanentStatus e.status then (.failed e index true, [])
      else (.failed e index false, [])
  | retriesLeft + 1, retryCount =>
    match attempts retryCount with
    | .ok t s d => (.ok t s d index, [])
    | .err e =>
      if isPermanentStatus e.status then (.failed e index true, [])
      else
        let b := backoffTime e retryCount
        let res := retryGo attempts index retriesLeft (retryCount + 1)
        (res.1, b :: res.2)

/-- `transcribeChunkWithRetry(chunkBuffer, index)` with the default
`retryCount = 0`, abstracted over the per-attempt service outcome. -/
def transcribeChunkWithRetry (attempts : ℕ → AttemptOutcome) (index : ℕ) :
    ChunkResult × List ℕ :=
  retryGo attempts index MAX_RETRIES 0

/-- The timeline-reconciliation loop of `analyzeTopicsWithTimestamps`:
for each result, `if (result.success && result.segments)` emit every segment
shifted by the running `totalOffset` and then
`if (result.duration) totalOffset += result.duration`
(a zero duration is falsy in JavaScript, hence the explicit zero branch;
numerically it adds nothing either way). -/
def reconcileSegments : List ChunkResult → ℚ → List GlobalSegment
  | [], _ => []
  | r :: rest, totalOffset =>
    match r with
    | .ok _ (some segs) dur idx =>
      (segs.map fun s =>
          ⟨s.text, totalOffset + s.start, totalOffset + s.stop, idx⟩) ++
        reconcileSegments rest
          (match dur with
           | some d => if d = 0 then totalOffset else totalOffset + d
           | none => totalOffset)
    | _ => reconcileSegments rest totalOffset

/-- The total reconciled duration (the final value of `totalOffset`), used
as the video duration fed to `getTopicCountForDuration`. -/
def totalReconciledDuration : List ChunkResult → ℚ → ℚ
  | [], totalOffset => totalOffset
  | r :: rest, totalOffset =>
    match r with
    | .ok _ (some _) dur _ =>
      totalReconciledDuration rest
        (match dur with
         | some d => if d = 0 then totalOffset else totalOffset + d
         | none => totalOffset)
    | _ => totalReconciledDuration rest totalOffset

/-- One entry of `TOPIC_ANALYSIS_CONFIG.durationBasedTopics`; `none` for
`maxDuration` models `Infinity`. -/
structure DurationCategoryCfg where
  minDuration : ℚ
  maxDuration : Option ℚ
  minTopics : ℕ
  maxTopics : ℕ
deriving Repr, DecidableEq

/-- `TOPIC_ANALYSIS_CONFIG.durationBasedTopics`. -/
structure DurationBasedTopics where
  short : DurationCategoryCfg
  medium : DurationCategoryCfg
  long : DurationCategoryCfg
deriving Repr, DecidableEq

/-- `TOPIC_ANALYSIS_CONFIG` (the fields the engine's logic reads). -/
structure TopicAnalysisConfig where
  minSegmentDuration : ℕ
  maxSegmentDuration : ℕ
  confidenceThreshold : ℚ
  enableFallback : Bool
  maxGptRetries : ℕ
  durationBasedTopics : DurationBasedTopics
deriving Repr, DecidableEq

/-- The constant `TOPIC_ANALYSIS_CONFIG` object of the source. -/
def TOPIC_ANALYSIS_CONFIG : TopicAnalysisConfig where
  minSegmentDuration := 30
  maxSegmentDuration := 300
  confidenceThreshold := 7/10
  enableFallback := true
  maxGptRetries := 2
  durationBasedTopics :=
    { short := ⟨60, some 1200, 3, 6⟩
      medium := ⟨1200, some 2400, 5, 8⟩
      long := ⟨2400, none, 8, 10⟩ }

/-- `d < m` against an optional upper bound, `none` meaning `Infinity`. -/
def ltOptB (d : ℚ) : Option ℚ → Bool
  | some m => decide (d < m)
  | none => true

/-- The result of `getTopicCountForDuration`. -/
structure TopicRange where
  minTopics : ℕ
  maxTopics : ℕ
  category : String
deriving Repr, DecidableEq

/-- `getTopicCountForDuration(durationInSeconds)`: floors the duration and
maps it through `durationBasedTopics`, defaulting to `very_short` (2-3)
for durations under one minute. -/
def getTopicCountForDuration (durationInSeconds : ℚ) : TopicRange :=
  let duration : ℤ := ⌊durationInSeconds⌋
  let config := TOPIC_ANALYSIS_CONFIG.durationBasedTopics
  if decide (config.short.minDuration ≤ (duration : ℚ)) &&
      ltOptB (duration : ℚ) config.short.maxDuration then
    ⟨config.short.minTopics, config.short.maxTopics, "short"⟩
  else if decide (config.medium.minDuration ≤ (duration : ℚ)) &&
      ltOptB (duration : ℚ) config.medium.maxDuration then
    ⟨config.medium.minTopics, config.medium.maxTopics, "medium"⟩
  else if decide (config.long.minDuration ≤ (duration : ℚ)) then
    ⟨config.long.minTopics, config.long.maxTopics, "long"⟩
  else
    ⟨2, 3, "very_short"⟩

/-- The per-chunk processing of a batch entry in
`getDetailedTranscriptionResults`: `getAudioChunk` returns `null` (here
`none`) when `end - start < 4096`, so the chunk is dropped without a
transcription call; otherwise the chunk is transcribed and only a
`success: true` value is stored into the results array (failures are
logged and, when non-permanent, pushed to `failedChunks`, but never
stored).  `transcribe i` is the final `ChunkResult` that
`transcribeChunkWithRetry` produces for chunk `i`. -/
def storedResultFor (transcribe : ℕ → ChunkResult) (c : ChunkSpec) :
    Option ChunkResult :=
  if c.endByte - c.start < 4096 then none
  else
    let r := transcribe c.index
    if r.isSuccess then some r else none

/-- The dense results list that survives to the end of
`getDetailedTranscriptionResults` (`transcriptionResults.filter(Boolean)`):
successful results in chunk-index order. -/
def storedResults (fileSize chunkSize : ℕ) (transcribe : ℕ → ChunkResult) :
    List ChunkResult :=
  (planChunks fileSize chunkSize).filterMap (storedResultFor transcribe)

/-- `getDetailedTranscriptionResults(audioPath, chunkSize, ...)`:
plan the chunks, process them (dropping sub-4096-byte chunks and keeping
only successes), then apply the success gate with
`successfulChunks = transcriptionResults.filter(r => r?.success).length`
and `totalChunks = chunks.length` — the length of the full plan. -/
def getDetailedTranscriptionResults (fileSize chunkSize : ℕ)
    (transcribe : ℕ → ChunkResult) :
    Except InsufficientSuccessError (List ChunkResult) :=
  let stored := storedResults fileSize chunkSize transcribe
  match successGate stored.length (planChunks fileSize chunkSize).length with
  | .error e => .error e
  | .ok _ => .ok stored

/-- The topic analysis returned by the segmentation model. -/
structure TopicSegment where
  startTime : String
  endTime : String
  topic : String
  description : String
deriving Repr, DecidableEq

/-- The parsed `{ segments: [...] }` object. -/
structure TopicAnalysis where
  segments : List TopicSegment
deriving Repr, DecidableEq

/-- The job-level output object of `transcribeAudioWithTopics`. -/
structure JobResult where
  transcription : String
  transcriptionResults : List ChunkResult
  topicAnalysis : Option TopicAnalysis
  analysisError : Option String
deriving Repr, DecidableEq

/-- `transcriptionResults.filter(r => r.success).map(r => r.text).join(" ")`. -/
def fullTranscription (results : List ChunkResult) : String :=
  String.intercalate " "
    ((results.filter ChunkResult.isSuccess).map ChunkResult.getText)

/-- The tail of `transcribeAudioWithTopics` after the gate passed:
`analyzeTopicsWithTimestamps` either returns a `TopicAnalysis` or throws
(its outcome is the `segmentation` parameter, an `Except` carrying the
thrown error's message); on a throw the error message is recorded and the
job continues unless `enableFallback` is off, in which case the error is
rethrown. -/
def transcribeAudioWithTopics (results : List ChunkResult)
    (segmentation : Except String TopicAnalysis) (enableFallback : Bool) :
    Except String JobResult :=
  match segmentation with
  | .ok ta =>
    .ok ⟨fullTranscription results, results, some ta, none⟩
  | .error msg =>
    if enableFallback then
      .ok ⟨fullTranscription results, results, none, some msg⟩
    else .error msg

/-- The chunks that are actually submitted for transcription: planned
chunks whose byte range meets the 4096-byte minimum of `getAudioChunk`. -/
def submittedChunkCount (fileSize chunkSize : ℕ) : ℕ :=
  ((planChunks fileSize chunkSize).filter
    fun c => decide (4096 ≤ c.endByte - c.start)).length


/-! ## Theorems -/

/-- Branch equation: thresholds above 10 chunks. -/
lemma successThreshold_above_ten {t : ℕ} (h : 10 < t) :
    calculateSuccessThreshold t = max (6/10) (1 - 3 / (t : ℚ)) := by
  rw [calculateSuccessThreshold, if_neg (by omega), if_neg (by omega),
    if_neg (by omega)]

/-- C1: for every totalChunks `t ≥ 1`, the gate's success threshold equals
1.0 for `t ≤ 3`, 0.8 for `4 ≤ t ≤ 5`, 0.7 for `6 ≤ t ≤ 10`, and
`max(0.6, 1 - 3/t)` for `t > 10`; in particular threshold(3) = 1.0,
threshold(4) = 0.8, threshold(10) = 0.7 and threshold(1000) = 0.997. -/
theorem successThreshold_piecewise (t : ℕ) (ht : 1 ≤ t) :
    (t ≤ 3 → calculateSuccessThreshold t = 1) ∧
    (4 ≤ t → t ≤ 5 → calculateSuccessThreshold t = 8/10) ∧
    (6 ≤ t → t ≤ 10 → calculateSuccessThreshold t = 7/10) ∧
    (10 < t → calculateSuccessThreshold t = max (6/10) (1 - 3 / (t : ℚ))) ∧
    calculateSuccessThreshold 3 = 1 ∧
    calculateSuccessThreshold 4 = 8/10 ∧
    calculateSuccessThreshold 10 = 7/10 ∧
    calculateSuccessThreshold 1000 = 997/1000 := by
  refine ⟨?_, ?_, ?_, fun h => successThreshold_above_ten h, ?_, ?_, ?_, ?_⟩
  · intro h
    rw [calculateSuccessThreshold, if_pos h]
  · intro h4 h5
    rw [calculateSuccessThreshold, if_neg (by omega), if_pos h5]
  · intro h6 h10
    rw [calculateSuccessThreshold, if_neg (by omega), if_neg (by omega),
      if_pos h10]
  · rw [calculateSuccessThreshold]; norm_num
  · rw [calculateSuccessThreshold]; norm_num
  · rw [calculateSuccessThreshold]; norm_num
  · rw [successThreshold_above_ten (by omega), max_eq_right (by norm_num)]
    norm_num

/-- C1 witness: the piecewise description evaluated at `t = 1000`. -/
theorem successThreshold_piecewise_witness :
    calculateSuccessThreshold 1000 = max (6/10) (1 - 3 / (1000 : ℚ)) :=
  (successThreshold_piecewise 1000 (by norm_num)).2.2.2.1 (by norm_num)

/-- C9 counterexample: at chunk counts `t1 = 10 ≤ t2 = 11` the threshold
increases (0.7 < 8/11), so it is not monotonically non-increasing. -/
theorem successThreshold_monotone_cex :
    1 ≤ 10 ∧ (10 : ℕ) ≤ 11 ∧
      ¬ (calculateSuccessThreshold 11 ≤ calculateSuccessThreshold 10) := by
  refine ⟨by norm_num, by norm_num, fun hle => ?_⟩
  rw [successThreshold_above_ten (by norm_num)] at hle
  have h10 : calculateSuccessThreshold 10 = 7/10 := by
    rw [calculateSuccessThreshold]; norm_num
  rw [h10] at hle
  have := le_trans (le_max_right (6/10 : ℚ) (1 - 3 / (11 : ℚ))) hle
  norm_num at this

/-- C9 amended: the threshold is monotonically non-increasing only on chunk
counts `1 ≤ t1 ≤ t2 ≤ 10`; for counts above 10 it equals
`max(0.6, 1 - 3/t)`, which is monotonically non-decreasing in `t` (the
fixed budget of 3 tolerated failures makes the required ratio grow with
the chunk count), so the function is not non-increasing across the
10-to-11 boundary nor beyond it. -/
theorem successThreshold_piecewise_monotone (t1 t2 : ℕ) (h1 : 1 ≤ t1)
    (h12 : t1 ≤ t2) :
    (t2 ≤ 10 → calculateSuccessThreshold t2 ≤ calculateSuccessThreshold t1) ∧
    (11 ≤ t1 → calculateSuccessThreshold t1 ≤ calculateSuccessThreshold t2) := by
  constructor
  · intro h2
    have h1' : t1 ≤ 10 := le_trans h12 h2
    interval_cases t1 <;> interval_cases t2 <;>
      norm_num [calculateSuccessThreshold]
  · intro h11
    rw [successThreshold_above_ten (by omega), successThreshold_above_ten (by omega)]
    have ht1 : (0 : ℚ) < (t1 : ℚ) := by positivity
    have ht2 : (t1 : ℚ) ≤ (t2 : ℚ) := by exact_mod_cast h12
    gcongr

/-- C9 amended witness: non-increasing from 2 to 3 chunks, non-decreasing
from 11 to 12 chunks. -/
theorem successThreshold_piecewise_monotone_witness :
    calculateSuccessThreshold 3 ≤ calculateSuccessThreshold 2 ∧
      calculateSuccessThreshold 11 ≤ calculateSuccessThreshold 12 :=
  ⟨(successThreshold_piecewise_monotone 2 3 (by norm_num) (by norm_num)).1
      (by norm_num),
    (successThreshold_piecewise_monotone 11 12 (by norm_num) (by norm_num)).2
      (by norm_num)⟩

/-- Any result surviving in the stored results list is a success. -/
lemma storedResults_isSuccess {fileSize chunkSize : ℕ}
    {transcribe : ℕ → ChunkResult} {r : ChunkResult}
    (h : r ∈ storedResults fileSize chunkSize transcribe) :
    r.isSuccess = true := by
  rcases List.mem_filterMap.mp h with ⟨c, _, hc⟩
  unfold storedResultFor at hc
  split at hc
  · exact absurd hc (by simp)
  · by_cases hs : (transcribe c.index).isSuccess
    · simp only [hs, if_true, Option.some.injEq] at hc
      rw [← hc]; exact hs
    · simp [hs] at hc

/-- The required count reported in the 5-chunk gate error. -/
lemma requiredSuccessCount_five : requiredSuccessCount 5 = 4 := by
  have h : calculateSuccessThreshold 5 = 8/10 := by
    rw [calculateSuccessThreshold]; norm_num
  rw [requiredSuccessCount, h]
  norm_num
  rfl

/-- C2: for `t ≥ 1` chunks of which `s` succeeded, the gate raises the
job-fatal error exactly when `s/t` is strictly below the threshold, the
error carrying the attempted counts and `ceil(t * threshold)`; at or above
the threshold the job proceeds.  With 5 chunks, 4 successes pass and 3
successes fail (reporting 3 of 5 attempted, 4 required); and any result
list the transcription phase returns holds successful chunks only, so
failed chunks are simply absent from the merged transcript. -/
theorem successGate_spec (s t : ℕ) (ht : 1 ≤ t) :
    ((s : ℚ) / (t : ℚ) < calculateSuccessThreshold t →
      successGate s t = .error ⟨s, t, requiredSuccessCount t⟩) ∧
    (¬ ((s : ℚ) / (t : ℚ) < calculateSuccessThreshold t) →
      successGate s t = .ok ()) ∧
    requiredSuccessCount t =
      (⌈(t : ℚ) * calculateSuccessThreshold t⌉).toNat ∧
    successGate 4 5 = .ok () ∧
    successGate 3 5 = .error ⟨3, 5, 4⟩ ∧
    (∀ fileSize chunkSize transcribe res,
      getDetailedTranscriptionResults fileSize chunkSize transcribe =
        .ok res → ∀ r ∈ res, r.isSuccess = true) := by
  have h5 : calculateSuccessThreshold 5 = 8/10 := by
    rw [calculateSuccessThreshold]; norm_num
  refine ⟨?_, ?_, rfl, ?_, ?_, ?_⟩
  · intro h
    rw [successGate, if_neg (by omega), if_pos h]
  · intro h
    rw [successGate, if_neg (by omega), if_neg h]
  · rw [successGate, if_neg (by norm_num), if_neg (by rw [h5]; norm_num)]
  · rw [successGate, if_neg (by norm_num), if_pos (by rw [h5]; norm_num),
      requiredSuccessCount_five]
  · intro fileSize chunkSize transcribe res hres r hr
    simp only [getDetailedTranscriptionResults] at hres
    split at hres
    · exact absurd hres (by simp)
    · simp only [Except.ok.injEq] at hres
      rw [← hres] at hr
      exact storedResults_isSuccess hr

/-- C2 witness: the gate at 5 chunks with 3 successes, below the 0.8
threshold, fails reporting 3 of 5 attempted and 4 required. -/
theorem successGate_spec_witness :
    successGate 3 5 = .error ⟨3, 5, 4⟩ :=
  (successGate_spec 3 5 (by norm_num)).2.2.2.2.1

/-- C3: the reconciler processes successful results in index order keeping a
running offset starting at 0: each segment of a successful chunk (one that
reports segments) is emitted shifted by the offset, and after that chunk the
offset grows by the chunk's service-reported duration; failed chunks and
chunks without segments contribute no segments and no offset.  In
particular chunk0 (duration 30, segment 0-5) followed by chunk1
(segment 2-8) reconciles to segments 0-5 and 32-38. -/
theorem reconcileSegments_spec :
    (∀ txt segs d idx rest offset,
      reconcileSegments (.ok txt (some segs) (some d) idx :: rest) offset =
        (segs.map fun s =>
          (⟨s.text, offset + s.start, offset + s.stop, idx⟩ : GlobalSegment)) ++
          reconcileSegments rest (offset + d)) ∧
    (∀ e i p rest offset,
      reconcileSegments (.failed e i p :: rest) offset =
        reconcileSegments rest offset) ∧
    (∀ txt d idx rest offset,
      reconcileSegments (.ok txt none d idx :: rest) offset =
        reconcileSegments rest offset) ∧
    reconcileSegments
        [ .ok "a" (some [⟨"a", 0, 5⟩]) (some 30) 0,
          .ok "b" (some [⟨"b", 2, 8⟩]) (some 17) 1 ] 0 =
      [⟨"a", 0, 5, 0⟩, ⟨"b", 32, 38, 1⟩] := by
  refine ⟨?_, ?_, ?_, ?_⟩
  · intro txt segs d idx rest offset
    by_cases hd : d = 0
    · subst hd
      simp [reconcileSegments]
    · simp [reconcileSegments, hd]
  · intro e i p rest offset
    simp [reconcileSegments]
  · intro txt d idx rest offset
    simp [reconcileSegments]
  · simp [reconcileSegments]
    norm_num

/-- C4: a chunk attempt failing with status 400, 401, 403 or 413 is returned
at once as a permanent failure with no retry and no backoff sleep; any other
failing status is retried up to `MAX_RETRIES = 3` times (4 attempts in
total), sleeping before each retry — the reset hint (else 2000 ms) for
status 429, `2 ^ attempt * 1000` ms otherwise, i.e. 1000 / 2000 / 4000 ms
after attempts 0 / 1 / 2 — and after exhausting retries the chunk is failed
without the permanent flag, retaining the last error. -/
theorem transcribeChunkWithRetry_spec :
    (∀ attempts idx e, attempts 0 = .err e →
      (e.status = 400 ∨ e.status = 401 ∨ e.status = 403 ∨ e.status = 413) →
      transcribeChunkWithRetry attempts idx = (.failed e idx true, [])) ∧
    (∀ attempts idx e0 e1 e2 e3,
      attempts 0 = .err e0 → attempts 1 = .err e1 →
      attempts 2 = .err e2 → attempts 3 = .err e3 →
      isPermanentStatus e0.status = false →
      isPermanentStatus e1.status = false →
      isPermanentStatus e2.status = false →
      isPermanentStatus e3.status = false →
      transcribeChunkWithRetry attempts idx =
        (.failed e3 idx false,
          [backoffTime e0 0, backoffTime e1 1, backoffTime e2 2])) ∧
    (∀ e r a, e.status = 429 → e.resetHint = some r → backoffTime e a = r) ∧
    (∀ e a, e.status = 429 → e.resetHint = none → backoffTime e a = 2000) ∧
    (∀ e a, e.status ≠ 429 → backoffTime e a = 2 ^ a * 1000) ∧
    (∀ e, e.status ≠ 429 →
      backoffTime e 0 = 1000 ∧ backoffTime e 1 = 2000 ∧
        backoffTime e 2 = 4000) ∧
    (∀ attempts idx t s d, attempts 0 = .ok t s d →
      transcribeChunkWithRetry attempts idx = (.ok t s d idx, [])) := by
  refine ⟨?_, ?_, ?_, ?_, ?_, ?_, ?_⟩
  · intro attempts idx e h0 hst
    have hp : isPermanentStatus e.status = true := by
      rcases hst with h | h | h | h <;> simp [isPermanentStatus, h]
    simp [transcribeChunkWithRetry, MAX_RETRIES, retryGo, h0, hp]
  · intro attempts idx e0 e1 e2 e3 h0 h1 h2 h3 hp0 hp1 hp2 hp3
    simp [transcribeChunkWithRetry, MAX_RETRIES, retryGo, h0, h1, h2, h3,
      hp0, hp1, hp2, hp3]
  · intro e r a h429 hreset
    simp [backoffTime, h429, hreset]
  · intro e a h429 hreset
    simp [backoffTime, h429, hreset]
  · intro e a h429
    simp [backoffTime, h429]
  · intro e h429
    refine ⟨?_, ?_, ?_⟩ <;> simp [backoffTime, h429]
  · intro attempts idx t s d h0
    simp [transcribeChunkWithRetry, MAX_RETRIES, retryGo, h0]

/-- C4 witness: an oracle failing every attempt with status 500 yields a
non-permanent failure after sleeps of 1000, 2000 and 4000 ms. -/
theorem transcribeChunkWithRetry_spec_witness :
    transcribeChunkWithRetry
        (fun _ => .err ⟨500, "server error", none⟩) 4 =
      (.failed ⟨500, "server error", none⟩ 4 false, [1000, 2000, 4000]) := by
  have h := transcribeChunkWithRetry_spec.2.1
    (fun _ => .err ⟨500, "server error", none⟩) 4
    ⟨500, "server error", none⟩ ⟨500, "server error", none⟩
    ⟨500, "server error", none⟩ ⟨500, "server error", none⟩
    rfl rfl rfl rfl rfl rfl rfl rfl
  rw [h]
  rfl

/-- Unfolding: one loop iteration while `offset < fileSize`. -/
lemma planChunksGo_succ_of_lt {fileSize chunkSize n offset idx : ℕ}
    (h : offset < fileSize) :
    planChunksGo fileSize chunkSize (n + 1) offset idx =
      ⟨offset, min (offset + chunkSize) fileSize, idx⟩ ::
        planChunksGo fileSize chunkSize n (min (offset + chunkSize) fileSize)
          (idx + 1) := by
  simp [planChunksGo, if_pos h]

/-- Unfolding: the loop stops once `offset` reaches `fileSize`. -/
lemma planChunksGo_of_ge {fileSize chunkSize offset idx : ℕ} (fuel : ℕ)
    (h : ¬ offset < fileSize) :
    planChunksGo fileSize chunkSize fuel offset idx = [] := by
  cases fuel <;> simp [planChunksGo, h]

/-- Inductive invariant of the planning loop: starting at
`offset ≤ fileSize` with enough fuel, the produced chunks contiguously
cover `[offset, fileSize)`, every chunk spans at most `chunkSize` bytes
with every chunk that stops short of the file end spanning exactly
`chunkSize`, and the chunk count is the ceiling of the remaining byte count
divided by `chunkSize`. -/
lemma planChunksGo_spec (fileSize chunkSize : ℕ) (hC : 0 < chunkSize) :
    ∀ fuel offset idx, offset ≤ fileSize → fileSize ≤ offset + fuel →
      coversFromB (planChunksGo fileSize chunkSize fuel offset idx) offset
          fileSize = true ∧
      (∀ c ∈ planChunksGo fileSize chunkSize fuel offset idx,
        c.endByte - c.start ≤ chunkSize ∧
          (c.endByte < fileSize → c.endByte - c.start = chunkSize)) ∧
      (planChunksGo fileSize chunkSize fuel offset idx).length =
        (fileSize - offset + chunkSize - 1) / chunkSize := by
  intro fuel
  induction fuel with
  | zero =>
    intro offset idx h1 h2
    have ho : offset = fileSize := by omega
    subst ho
    refine ⟨by simp [planChunksGo, coversFromB], by simp [planChunksGo], ?_⟩
    simp only [planChunksGo, List.length_nil]
    rw [Nat.div_eq_of_lt (by omega)]
  | succ n ih =>
    intro offset idx h1 h2
    by_cases h : offset < fileSize
    · have hcases : min (offset + chunkSize) fileSize = offset + chunkSize ∨
          min (offset + chunkSize) fileSize = fileSize := min_choice _ _
      have he1 : min (offset + chunkSize) fileSize ≤ offset + chunkSize :=
        min_le_left _ _
      have he2 : min (offset + chunkSize) fileSize ≤ fileSize :=
        min_le_right _ _
      have he3 : offset < min (offset + chunkSize) fileSize := by
        rcases hcases with h' | h' <;> omega
      obtain ⟨ihc, ihs, ihl⟩ :=
        ih (min (offset + chunkSize) fileSize) (idx + 1) he2 (by omega)
      rw [planChunksGo_succ_of_lt h]
      refine ⟨?_, ?_, ?_⟩
      · simp [coversFromB, ihc, he2, he3]
      · intro c hc
        rcases List.mem_cons.mp hc with rfl | hc
        · refine
            ⟨show min (offset + chunkSize) fileSize - offset ≤ chunkSize by
                omega,
              fun hce => ?_⟩
          have hce' : min (offset + chunkSize) fileSize < fileSize := hce
          show min (offset + chunkSize) fileSize - offset = chunkSize
          omega
        · exact ihs c hc
      · rw [List.length_cons, ihl]
        rcases hcases with h' | h'
        · rw [h']
          have hM : offset + chunkSize ≤ fileSize := by
            rw [← h']; exact he2
          have e1 : fileSize - (offset + chunkSize) + chunkSize - 1 =
              fileSize - offset - 1 := by omega
          have e2 : fileSize - offset + chunkSize - 1 =
              fileSize - offset - 1 + chunkSize := by omega
          rw [e1, e2, Nat.add_div_right _ hC]
        · rw [h']
          have hM : fileSize - offset ≤ chunkSize := by
            have := h' ▸ he1; omega
          have e1 : fileSize - fileSize + chunkSize - 1 = chunkSize - 1 := by
            omega
          have e2 : fileSize - offset + chunkSize - 1 =
              fileSize - offset - 1 + chunkSize := by omega
          rw [e1, e2, Nat.add_div_right _ hC,
            Nat.div_eq_of_lt (show chunkSize - 1 < chunkSize by omega),
            Nat.div_eq_of_lt (show fileSize - offset - 1 < chunkSize by omega)]
    · have ho : offset = fileSize := by omega
      rw [planChunksGo_of_ge _ h]
      subst ho
      refine ⟨by simp [coversFromB], by simp, ?_⟩
      simp only [List.length_nil]
      rw [Nat.div_eq_of_lt (by omega)]

/-- C5: for `chunkSize > 0` the planned chunk list is an ordered sequence
of byte ranges that are contiguous, non-overlapping and exactly cover
`[0, fileSize)` (`coversFromB`), each at most `chunkSize` bytes with only
the final range (the one reaching the file end) possibly shorter; the
number of chunks is `ceil(fileSize / chunkSize)` — stated both as
`(fileSize + chunkSize - 1) / chunkSize` and by the bounds
`fileSize ≤ count * chunkSize < fileSize + chunkSize` — and a zero-byte
file yields the empty list.  Planning is a pure function of
`(fileSize, chunkSize)` by construction. -/
theorem planChunks_spec (fileSize chunkSize : ℕ) (hC : 0 < chunkSize) :
    coversFromB (planChunks fileSize chunkSize) 0 fileSize = true ∧
    (∀ c ∈ planChunks fileSize chunkSize,
      c.endByte - c.start ≤ chunkSize ∧
        (c.endByte < fileSize → c.endByte - c.start = chunkSize)) ∧
    (planChunks fileSize chunkSize).length =
      (fileSize + chunkSize - 1) / chunkSize ∧
    fileSize ≤ (planChunks fileSize chunkSize).length * chunkSize ∧
    (planChunks fileSize chunkSize).length * chunkSize <
      fileSize + chunkSize ∧
    planChunks 0 chunkSize = [] := by
  obtain ⟨hc, hs, hl⟩ := planChunksGo_spec fileSize chunkSize hC fileSize 0 0
    (Nat.zero_le _) (by omega)
  have hl' : (planChunks fileSize chunkSize).length =
      (fileSize + chunkSize - 1) / chunkSize := by
    rw [planChunks, hl]
    congr 1
  refine ⟨hc, hs, hl', ?_, ?_, rfl⟩
  · rw [hl']
    have h2 := Nat.mod_lt (fileSize + chunkSize - 1) hC
    have h3 := Nat.div_add_mod (fileSize + chunkSize - 1) chunkSize
    have hcomm : (fileSize + chunkSize - 1) / chunkSize * chunkSize =
        chunkSize * ((fileSize + chunkSize - 1) / chunkSize) :=
      Nat.mul_comm _ _
    omega
  · rw [hl']
    have h3 := Nat.div_add_mod (fileSize + chunkSize - 1) chunkSize
    have hcomm : (fileSize + chunkSize - 1) / chunkSize * chunkSize =
        chunkSize * ((fileSize + chunkSize - 1) / chunkSize) :=
      Nat.mul_comm _ _
    omega

/-- C5 witness: a 100-byte file with 30-byte chunks yields 4 chunks
covering [0, 100). -/
theorem planChunks_spec_witness :
    coversFromB (planChunks 100 30) 0 100 = true ∧
      (planChunks 100 30).length = (100 + 30 - 1) / 30 :=
  ⟨(planChunks_spec 100 30 (by norm_num)).1,
    (planChunks_spec 100 30 (by norm_num)).2.2.1⟩

/-- C6: the topic planner is a pure function of the reconciled duration `d`
(in seconds, `d ≥ 0`) mapping `d < 60` to very_short with 2-3 topics,
`60 ≤ d < 1200` to short with 3-6, `1200 ≤ d < 2400` to medium with 5-8,
and `d ≥ 2400` to long with 8-10. -/
theorem getTopicCountForDuration_spec (d : ℚ) (hd : 0 ≤ d) :
    (d < 60 → getTopicCountForDuration d = ⟨2, 3, "very_short"⟩) ∧
    (60 ≤ d → d < 1200 → getTopicCountForDuration d = ⟨3, 6, "short"⟩) ∧
    (1200 ≤ d → d < 2400 → getTopicCountForDuration d = ⟨5, 8, "medium"⟩) ∧
    (2400 ≤ d → getTopicCountForDuration d = ⟨8, 10, "long"⟩) := by
  refine ⟨fun h => ?_, fun h h' => ?_, fun h h' => ?_, fun h => ?_⟩
  · have hf : ⌊d⌋ < 60 := Int.floor_lt.mpr (by exact_mod_cast h)
    have c1 : ¬ ((60 : ℚ) ≤ (⌊d⌋ : ℚ)) := by
      intro hc
      have : (60 : ℤ) ≤ ⌊d⌋ := by exact_mod_cast hc
      omega
    have c2 : ¬ ((1200 : ℚ) ≤ (⌊d⌋ : ℚ)) := by
      intro hc
      have : (1200 : ℤ) ≤ ⌊d⌋ := by exact_mod_cast hc
      omega
    have c3 : ¬ ((2400 : ℚ) ≤ (⌊d⌋ : ℚ)) := by
      intro hc
      have : (2400 : ℤ) ≤ ⌊d⌋ := by exact_mod_cast hc
      omega
    simp [getTopicCountForDuration, TOPIC_ANALYSIS_CONFIG, ltOptB, c1, c2, c3]
  · have hf1 : (60 : ℤ) ≤ ⌊d⌋ := Int.le_floor.mpr (by exact_mod_cast h)
    have hf2 : ⌊d⌋ < 1200 := Int.floor_lt.mpr (by exact_mod_cast h')
    have c1 : (60 : ℚ) ≤ (⌊d⌋ : ℚ) := by exact_mod_cast hf1
    have c2 : (⌊d⌋ : ℚ) < 1200 := by exact_mod_cast hf2
    simp [getTopicCountForDuration, TOPIC_ANALYSIS_CONFIG, ltOptB, c1, c2]
  · have hf1 : (1200 : ℤ) ≤ ⌊d⌋ := Int.le_floor.mpr (by exact_mod_cast h)
    have hf2 : ⌊d⌋ < 2400 := Int.floor_lt.mpr (by exact_mod_cast h')
    have c0 : ¬ ((⌊d⌋ : ℚ) < 1200) := by
      intro hc
      have : ⌊d⌋ < (1200 : ℤ) := by exact_mod_cast hc
      omega
    have c1 : (1200 : ℚ) ≤ (⌊d⌋ : ℚ) := by exact_mod_cast hf1
    have c2 : (⌊d⌋ : ℚ) < 2400 := by exact_mod_cast hf2
    simp [getTopicCountForDuration, TOPIC_ANALYSIS_CONFIG, ltOptB, c0, c1, c2]
  · have hf1 : (2400 : ℤ) ≤ ⌊d⌋ := Int.le_floor.mpr (by exact_mod_cast h)
    have c0 : ¬ ((⌊d⌋ : ℚ) < 1200) := by
      intro hc
      have : ⌊d⌋ < (1200 : ℤ) := by exact_mod_cast hc
      omega
    have c1 : ¬ ((⌊d⌋ : ℚ) < 2400) := by
      intro hc
      have : ⌊d⌋ < (2400 : ℤ) := by exact_mod_cast hc
      omega
    have c2 : (2400 : ℚ) ≤ (⌊d⌋ : ℚ) := by exact_mod_cast hf1
    simp [getTopicCountForDuration, TOPIC_ANALYSIS_CONFIG, ltOptB, c0, c1, c2]

/-- C6 witness: a 45-second recording is very_short with 2-3 topics. -/
theorem getTopicCountForDuration_spec_witness :
    getTopicCountForDuration 45 = ⟨2, 3, "very_short"⟩ :=
  (getTopicCountForDuration_spec 45 (by norm_num)).1 (by norm_num)

/-- C7: after the gate passed, a segmentation failure with fallback enabled
(which is the configured default) still returns a successful job with
`topicAnalysis = null`, `analysisError` the failure's (non-empty) message,
and the transcription joined from successful chunks only; with fallback
disabled the failure propagates and is job-fatal. -/
theorem transcribeAudioWithTopics_spec (results : List ChunkResult)
    (msg : String) (hmsg : msg ≠ "") :
    transcribeAudioWithTopics results (.error msg) true =
      .ok ⟨fullTranscription results, results, none, some msg⟩ ∧
    transcribeAudioWithTopics results (.error msg) false = .error msg ∧
    TOPIC_ANALYSIS_CONFIG.enableFallback = true ∧
    (some msg ≠ (none : Option String) ∧ msg ≠ "") ∧
    (∀ e i p rest,
      fullTranscription (.failed e i p :: rest) = fullTranscription rest) ∧
    (∀ t s d i, fullTranscription [.ok t s d i] = t) := by
  refine ⟨rfl, rfl, rfl, ⟨by simp, hmsg⟩, ?_, ?_⟩
  · intro e i p rest
    simp [fullTranscription, ChunkResult.isSuccess]
  · intro t s d i
    simp [fullTranscription, ChunkResult.isSuccess, ChunkResult.getText,
      String.intercalate]
    rfl

/-- C7 witness: a failed segmentation with message on an empty result list
falls back to a transcription-only job output. -/
theorem transcribeAudioWithTopics_spec_witness :
    transcribeAudioWithTopics [] (.error "segmentation failed") true =
      .ok ⟨fullTranscription [], [], none, some "segmentation failed"⟩ :=
  (transcribeAudioWithTopics_spec [] "segmentation failed" (by decide)).1

/-- The gate's error always reports the totalChunks it was given. -/
lemma successGate_error_total {s t : ℕ} {e : InsufficientSuccessError}
    (h : successGate s t = .error e) : e.totalChunks = t := by
  rw [successGate] at h
  split_ifs at h
  all_goals injection h with h'
  all_goals exact congrArg InsufficientSuccessError.totalChunks h'.symm

/-- Stored (successful) results are never more numerous than the submitted
(at least 4096-byte) chunks: dropped chunks produce no stored result. -/
lemma storedResultFor_small {transcribe : ℕ → ChunkResult} {c : ChunkSpec}
    (h : c.endByte - c.start < 4096) :
    storedResultFor transcribe c = none := by
  unfold storedResultFor
  rw [if_pos h]

lemma storedResultFor_large {transcribe : ℕ → ChunkResult} {c : ChunkSpec}
    (h : ¬ c.endByte - c.start < 4096) :
    storedResultFor transcribe c =
      (if (transcribe c.index).isSuccess then some (transcribe c.index)
        else none) := by
  unfold storedResultFor
  rw [if_neg h]

lemma filterMap_stored_le (transcribe : ℕ → ChunkResult) :
    ∀ l : List ChunkSpec,
      (l.filterMap (storedResultFor transcribe)).length ≤
        (l.filter fun c => decide (4096 ≤ c.endByte - c.start)).length := by
  intro l
  induction l with
  | nil => simp
  | cons c rest ih =>
    rw [List.filterMap_cons, List.filter_cons]
    by_cases h : c.endByte - c.start < 4096
    · have h2 : ¬ (4096 ≤ c.endByte - c.start) := by omega
      have h2' : ¬ (decide (4096 ≤ c.endByte - c.start) = true) := by
        simpa using h2
      rw [storedResultFor_small h, if_neg h2']
      exact ih
    · have h2 : 4096 ≤ c.endByte - c.start := by omega
      have h2' : decide (4096 ≤ c.endByte - c.start) = true :=
        decide_eq_true h2
      rw [storedResultFor_large h]
      by_cases hs : (transcribe c.index).isSuccess
      · rw [if_pos hs, if_pos h2']
        exact Nat.succ_le_succ ih
      · rw [if_neg hs, if_pos h2']
        exact Nat.le_succ_of_le ih

/-- A planned chunk below the 4096-byte minimum makes the submitted count
strictly smaller than the planned count. -/
lemma submitted_lt_of_dropped {fileSize chunkSize : ℕ}
    (h : ∃ c ∈ planChunks fileSize chunkSize, c.endByte - c.start < 4096) :
    submittedChunkCount fileSize chunkSize <
      (planChunks fileSize chunkSize).length := by
  rcases h with ⟨c, hmem, hsmall⟩
  rw [submittedChunkCount]
  refine lt_of_le_of_ne (List.length_filter_le _ _) fun hlen => ?_
  have : ∀ x ∈ planChunks fileSize chunkSize,
      (fun c => decide (4096 ≤ c.endByte - c.start)) x = true :=
    List.filter_length_eq_length.mp hlen
  have := this c hmem
  simp only [decide_eq_true_eq] at this
  omega

/-- C8 counterexample: a 4097-byte file with 4096-byte chunks plans two
chunks, the second of which (1 byte) is dropped by the minimum-size check;
yet even when every submitted chunk succeeds, the gate divides by
`chunks.length = 2` — not by the submitted count 1 — so it fails the job
reporting 1 of 2 with 2 required, whereas a gate over submitted chunks
only (1 of 1) would pass. -/
theorem gateTotalChunks_cex :
    getDetailedTranscriptionResults 4097 4096
        (fun i => .ok "texto" (some []) (some 1) i) = .error ⟨1, 2, 2⟩ ∧
    submittedChunkCount 4097 4096 = 1 ∧
    (planChunks 4097 4096).length = 2 ∧
    successGate 1 1 = .ok () := by
  have hthr2 : calculateSuccessThreshold 2 = 1 := by
    rw [calculateSuccessThreshold]; norm_num
  have hthr1 : calculateSuccessThreshold 1 = 1 := by
    rw [calculateSuccessThreshold]; norm_num
  have hreq2 : requiredSuccessCount 2 = 2 := by
    rw [requiredSuccessCount, hthr2]
    norm_num
    rfl
  have hgate : successGate 1 2 = .error ⟨1, 2, 2⟩ := by
    rw [successGate, if_neg (by norm_num), if_pos (by rw [hthr2]; norm_num),
      hreq2]
  have hstored : storedResults 4097 4096
      (fun i => .ok "texto" (some []) (some 1) i) =
      [.ok "texto" (some []) (some 1) 0] := rfl
  have hlen : (planChunks 4097 4096).length = 2 := rfl
  refine ⟨?_, rfl, rfl, ?_⟩
  · unfold getDetailedTranscriptionResults
    rw [hstored, hlen]
    simp only [List.length_singleton]
    rw [hgate]
  · rw [successGate, if_neg (by norm_num), if_neg (by rw [hthr1]; norm_num)]

/-- C8 amended: the `totalChunks` used by the gate — to select the
threshold and as the denominator of the success ratio — counts ALL planned
chunks, including sub-4096-byte chunks that are dropped rather than sent
for transcription; dropped chunks can never be counted successful, so each
one counts against the success ratio (the claim that the gate counts only
submitted, non-dropped chunks is false). -/
theorem gateTotalChunks_amended (fileSize chunkSize : ℕ)
    (transcribe : ℕ → ChunkResult) :
    (∀ e, getDetailedTranscriptionResults fileSize chunkSize transcribe =
        .error e → e.totalChunks = (planChunks fileSize chunkSize).length) ∧
    (storedResults fileSize chunkSize transcribe).length ≤
      submittedChunkCount fileSize chunkSize ∧
    ((∃ c ∈ planChunks fileSize chunkSize, c.endByte - c.start < 4096) →
      submittedChunkCount fileSize chunkSize <
        (planChunks fileSize chunkSize).length) := by
  refine ⟨?_, filterMap_stored_le transcribe _, submitted_lt_of_dropped⟩
  intro e he
  simp only [getDetailedTranscriptionResults] at he
  split at he
  next heq =>
    simp only [Except.error.injEq] at he
    exact he ▸ successGate_error_total heq
  next heq => exact absurd he (by simp)

/-- C8 amended witness: the 4097-byte plan has a dropped 1-byte chunk, so
the submitted count 1 is strictly below the gate's denominator 2. -/
theorem gateTotalChunks_amended_witness :
    submittedChunkCount 4097 4096 < (planChunks 4097 4096).length :=
  (gateTotalChunks_amended 4097 4096
      (fun i => .ok "texto" (some []) (some 1) i)).2.2
    ⟨⟨4096, 4097, 1⟩, by decide, by decide⟩

/-- C10: a zero-byte file plans an empty chunk list; the gate's comparison
is then JavaScript's `0/0 = NaN < threshold`, which is false, so the
insufficient-success-rate error is not raised; the phase returns an empty
per-chunk results list and the job's merged transcription is the empty
string (whether or not topic segmentation subsequently succeeds). -/
theorem zeroByteFile_spec (chunkSize : ℕ) (transcribe : ℕ → ChunkResult)
    (ta : TopicAnalysis) (msg : String) :
    planChunks 0 chunkSize = [] ∧
    successGate 0 0 = .ok () ∧
    getDetailedTranscriptionResults 0 chunkSize transcribe = .ok [] ∧
    fullTranscription [] = "" ∧
    transcribeAudioWithTopics [] (.ok ta) true =
      .ok ⟨"", [], some ta, none⟩ ∧
    transcribeAudioWithTopics [] (.error msg) true =
      .ok ⟨"", [], none, some msg⟩ :=
  ⟨rfl, rfl, rfl, rfl, rfl, rfl⟩

end RadioIA
